import Mathlib

/-!
Verification of `csync_vio_set_file_id`.

A shallow embedding of `src/csync/vio/csync_vio_file_stat.cpp`:

    void csync_vio_set_file_id( char* dst, const char *src ) {
        if( src && dst ) {
            if( strlen(src) > FILE_ID_BUF_SIZE ) {
                CSYNC_LOG(CSYNC_LOG_PRIORITY_ERROR, "Ignoring file_id because it is too long: %s", src);
                strcpy(dst, "");
            } else {
                strcpy(dst, src);
            }
        }
    }

Memory is modelled region by region: a pointer is `none` (NULL) or `some m`
where `m` lists the bytes of the region it points to, index 0 first.  The
regions of `dst` and `src` are disjoint.  A load or store outside a region is
undefined behaviour in C; the model reports it as `none`.
-/

namespace Csync

/-- A C `char`. -/
abbrev Byte := UInt8

/-- The bytes of a memory region, starting at the address a pointer holds. -/
abbrev Buffer := List Byte

/-- The bytes of a C string literal, terminator included. -/
def cstringLit (s : String) : Buffer :=
  s.toList.map (fun c => UInt8.ofNat c.toNat) ++ [0]

/-- C `strlen`: the index of the first zero byte.  `none` when the region holds
no terminator (the scan would leave the region). -/
def strlen : Buffer → Option Nat
  | [] => none
  | b :: rest => if b = 0 then some 0 else (strlen rest).map (· + 1)

/-- The string a region holds: its bytes before the first terminator. -/
def cstr (m : Buffer) : List Byte :=
  m.takeWhile (fun b => b != 0)

/-- A region being written, together with the trace of the indices stored to
(oldest first). -/
structure Dest where
  bytes : Buffer
  written : List Nat
deriving DecidableEq

/-- One byte store `d[i] = b`; `none` when index `i` lies outside the region. -/
def Dest.store (d : Dest) (i : Nat) (b : Byte) : Option Dest :=
  if i < d.bytes.length then
    some { bytes := d.bytes.set i b, written := d.written ++ [i] }
  else
    none

/-- The loop of C `strcpy`, `while ((d[i++] = *s++) != 0);`, reading the source
region `s` from its front and storing from index `i` of the destination. -/
def strcpyFrom (d : Dest) (i : Nat) : Buffer → Option Dest
  | [] => none
  | b :: rest =>
    match d.store i b with
    | none => none
    | some d1 => if b = 0 then some d1 else strcpyFrom d1 (i + 1) rest

/-- C `strcpy(dst, src)`. -/
def strcpy (dst : Buffer) (src : Buffer) : Option Dest :=
  strcpyFrom { bytes := dst, written := [] } 0 src

/-- Modelled from the spec: the severity levels of the diagnostic sink (the
enum of `csync_log.h`, which is not among the sources); the code names only
`CSYNC_LOG_PRIORITY_ERROR`. -/
inductive LogPriority where
  | CSYNC_LOG_PRIORITY_FATAL
  | CSYNC_LOG_PRIORITY_ERROR
  | CSYNC_LOG_PRIORITY_WARN
  | CSYNC_LOG_PRIORITY_DEBUG
deriving DecidableEq

/-- One invocation of the logging facility: the priority, the format string
(without its terminator) and the strings passed for its `%s` directives. -/
structure LogEvent where
  priority : LogPriority
  format : List Byte
  args : List (List Byte)
deriving DecidableEq

/-- Modelled from the spec: the macro `CSYNC_LOG` of `csync_log.h` (not among
the sources) emits one diagnostic record per invocation, at the given
severity, through the external logging facility. -/
def CSYNC_LOG (priority : LogPriority) (format : Buffer) (args : List Buffer) : LogEvent :=
  { priority := priority, format := cstr format, args := args.map cstr }

/-- Modelled from the spec: the text of a diagnostic record, its format string
with every `%s` directive replaced by the next argument (printf style). -/
def formatMessage : List Byte → List (List Byte) → List Byte
  | [], _ => []
  | [c], _ => [c]
  | c :: c2 :: rest, args =>
    if c = 37 ∧ c2 = 115 then
      match args with
      | [] => formatMessage rest []
      | a :: more => a ++ formatMessage rest more
    else
      c :: formatMessage (c2 :: rest) args

/-- The text of the record an event produces. -/
def LogEvent.message (e : LogEvent) : List Byte :=
  formatMessage e.format e.args

/-- What one call leaves behind: the destination region (`none` for a NULL
`dst`), the indices of the destination it stored to, and the diagnostic events
it emitted. -/
structure Outcome where
  dst : Option Buffer
  written : List Nat
  log : List LogEvent
deriving DecidableEq

/-- The format string of the rejection diagnostic. -/
def tooLongFormat : Buffer :=
  cstringLit "Ignoring file_id because it is too long: %s"

/-- The function `csync_vio_set_file_id`.  `FILE_ID_BUF_SIZE` is a constant of
`csync.h`, which is not among the sources, and is taken as a parameter.  The
result is `none` when the call has undefined behaviour (an unterminated `src`
or a store outside `dst`). -/
def csync_vio_set_file_id (FILE_ID_BUF_SIZE : Nat) (dst : Option Buffer)
    (src : Option Buffer) : Option Outcome :=
  match src, dst with
  | some s, some d =>
    match strlen s with
    | none => none
    | some n =>
      if n > FILE_ID_BUF_SIZE then
        let ev := CSYNC_LOG LogPriority.CSYNC_LOG_PRIORITY_ERROR tooLongFormat [s]
        (strcpy d (cstringLit "")).map fun r =>
          { dst := some r.bytes, written := r.written, log := [ev] }
      else
        (strcpy d s).map fun r =>
          { dst := some r.bytes, written := r.written, log := [] }
  | _, _ => some { dst := dst, written := [], log := [] }

/-- The string held in the destination after a call, when there is one. -/
def Outcome.held (o : Outcome) : Option (List Byte) :=
  o.dst.map cstr

/-- The decimal digits of a number, as the bytes `%d` or `%zu` would print. -/
def decimal (n : Nat) : List Byte :=
  (Nat.toDigits 10 n).map (fun c => UInt8.ofNat c.toNat)

/-- The region holds a terminator-bounded string of at most `cap` characters. -/
def holdsBoundedString (cap : Nat) (m : Buffer) : Bool :=
  match strlen m with
  | some n => decide (n ≤ cap)
  | none => false

/-- The fixed text that opens the rejection record. -/
def tooLongText : List Byte :=
  cstr (cstringLit "Ignoring file_id because it is too long: ")

/-- The byte is an ASCII decimal digit. -/
def isDigit (b : Byte) : Bool :=
  decide (48 ≤ b.toNat ∧ b.toNat ≤ 57)

/-! Facts about the C string primitives. -/

theorem cstringLit_empty : cstringLit "" = [0] := rfl

theorem cstr_cons_zero (rest : Buffer) : cstr (0 :: rest) = [] := by
  simp [cstr]

theorem cstr_cons_ne (b : Byte) (rest : Buffer) (hb : b ≠ 0) :
    cstr (b :: rest) = b :: cstr rest := by
  simp [cstr, hb]

theorem cstr_ne_zero (m : Buffer) : ∀ b ∈ cstr m, b ≠ 0 := by
  intro b hb
  have h := List.mem_takeWhile_imp hb
  simpa using h

theorem cstr_append_zero (s t : List Byte) (hs : ∀ b ∈ s, b ≠ 0) :
    cstr (s ++ 0 :: t) = s := by
  induction s with
  | nil => simp [cstr]
  | cons a s ih =>
    have ha : a ≠ 0 := hs a (List.mem_cons_self a s)
    have hrest : ∀ b ∈ s, b ≠ 0 := fun b hb => hs b (List.mem_cons_of_mem a hb)
    rw [List.cons_append, cstr_cons_ne _ _ ha, ih hrest]

theorem strlen_eq_cstr_length (m : Buffer) (n : Nat) (h : strlen m = some n) :
    (cstr m).length = n := by
  induction m generalizing n with
  | nil => simp [strlen] at h
  | cons b rest ih =>
    by_cases hb : b = 0
    · subst hb
      simp [strlen] at h
      simp [cstr_cons_zero, h]
    · rw [cstr_cons_ne _ _ hb]
      simp only [strlen, hb, if_false, Option.map_eq_some'] at h
      obtain ⟨k, hk, rfl⟩ := h
      simp [ih k hk]

theorem strcpyFrom_spec (src : Buffer) (n : Nat) (h : strlen src = some n)
    (d : Dest) (i : Nat) (hi : i + n < d.bytes.length) :
    strcpyFrom d i src =
      some { bytes := d.bytes.take i ++ (cstr src ++ 0 :: d.bytes.drop (i + n + 1)),
             written := d.written ++ List.range' i (n + 1) } := by
  induction src generalizing n d i with
  | nil => simp [strlen] at h
  | cons b rest ih =>
    have hlt : i < d.bytes.length := by omega
    by_cases hb : b = 0
    · subst hb
      simp [strlen] at h
      subst h
      simp [strcpyFrom, Dest.store, hlt, cstr_cons_zero, List.set_eq_take_append_cons_drop]
    · simp only [strlen, hb, if_false, Option.map_eq_some'] at h
      obtain ⟨k, hk, rfl⟩ := h
      have hi2 : (i + 1) + k < (d.bytes.set i b).length := by
        rw [List.length_set]; omega
      have key := ih k hk { bytes := d.bytes.set i b, written := d.written ++ [i] } (i + 1) hi2
      simp only [strcpyFrom, Dest.store, hlt, if_true, hb, if_false]
      rw [key, cstr_cons_ne _ _ hb]
      have e1 : (d.bytes.set i b).take (i + 1) = d.bytes.take i ++ [b] := by
        rw [List.set_eq_take_append_cons_drop, if_pos hlt]
        rw [List.take_append_eq_append_take]
        simp [List.length_take, Nat.min_eq_left (Nat.le_of_lt hlt)]
      have e2 : (d.bytes.set i b).drop (i + 1 + k + 1) = d.bytes.drop (i + (k + 1) + 1) := by
        rw [List.drop_set_of_lt _ _ (by omega)]
        congr 1; omega
      rw [e1, e2]
      simp [List.range'_succ, List.append_assoc]

/-! The paths of `csync_vio_set_file_id`. -/

theorem strcpy_spec (dst src : Buffer) (n : Nat) (h : strlen src = some n)
    (hd : n < dst.length) :
    strcpy dst src =
      some { bytes := cstr src ++ 0 :: dst.drop (n + 1),
             written := List.range' 0 (n + 1) } := by
  have key := strcpyFrom_spec src n h { bytes := dst, written := [] } 0 (by simpa using hd)
  simpa [strcpy] using key

theorem accept_path (cap : Nat) (dst src : Buffer) (n : Nat) (h : strlen src = some n)
    (hfit : n ≤ cap) (hd : cap < dst.length) :
    csync_vio_set_file_id cap (some dst) (some src) =
      some { dst := some (cstr src ++ 0 :: dst.drop (n + 1)),
             written := List.range' 0 (n + 1), log := [] } := by
  have hn : ¬ n > cap := by omega
  simp [csync_vio_set_file_id, h, hn, strcpy_spec dst src n h (by omega)]

theorem reject_path (cap : Nat) (dst src : Buffer) (n : Nat) (h : strlen src = some n)
    (hlong : cap < n) (hd : cap < dst.length) :
    csync_vio_set_file_id cap (some dst) (some src) =
      some { dst := some (0 :: dst.drop 1), written := [0],
             log := [CSYNC_LOG LogPriority.CSYNC_LOG_PRIORITY_ERROR tooLongFormat [src]] } := by
  have h0 : strlen (cstringLit "") = some 0 := rfl
  have key := strcpy_spec dst (cstringLit "") 0 h0 (by omega)
  simp only [csync_vio_set_file_id, h, hlong, gt_iff_lt, if_true, key, Option.map_some']
  simp [cstringLit_empty, cstr_cons_zero]

theorem getElem?_cstr_append_zero (s t : List Byte) :
    (s ++ 0 :: t)[s.length]? = some 0 := by
  rw [List.getElem?_append_right (Nat.le_refl _)]
  simp

/-! The claims. -/

/-- C1: when both pointers are present, the source is a string of length at
most `FILE_ID_BUF_SIZE` and the destination has room for `FILE_ID_BUF_SIZE`
characters and a terminator, the call leaves in the destination a string equal
to the source byte for byte, with the terminator at index `strlen(src)`. -/
theorem set_file_id_fits (FILE_ID_BUF_SIZE : Nat) (dst src : Buffer) (n : Nat)
    (hsrc : strlen src = some n) (hfit : n ≤ FILE_ID_BUF_SIZE)
    (hdst : FILE_ID_BUF_SIZE < dst.length) :
    ∃ out buf, csync_vio_set_file_id FILE_ID_BUF_SIZE (some dst) (some src) = some out ∧
      out.dst = some buf ∧ cstr buf = cstr src ∧ (cstr src).length = n ∧
      buf[n]? = some 0 := by
  have hlen := strlen_eq_cstr_length src n hsrc
  refine ⟨_, _, accept_path FILE_ID_BUF_SIZE dst src n hsrc hfit hdst, rfl, ?_, hlen, ?_⟩
  · exact cstr_append_zero _ _ (cstr_ne_zero src)
  · rw [← hlen]
    exact getElem?_cstr_append_zero _ _

theorem set_file_id_fits_witness :
    strlen (cstringLit "abc123") = some 6 ∧ 6 ≤ 16 ∧ 16 < (List.replicate 17 (7 : Byte)).length ∧
    ∃ out buf, csync_vio_set_file_id 16 (some (List.replicate 17 7))
        (some (cstringLit "abc123")) = some out ∧
      out.dst = some buf ∧ cstr buf = cstr (cstringLit "abc123") ∧
      (cstr (cstringLit "abc123")).length = 6 ∧ buf[6]? = some 0 :=
  ⟨by decide, by decide, by decide,
    set_file_id_fits 16 (List.replicate 17 7) (cstringLit "abc123") 6
      (by decide) (by decide) (by decide)⟩

/-- C2: when both pointers are present and the source is a string longer than
`FILE_ID_BUF_SIZE`, the call leaves the empty string in the destination and
emits exactly one diagnostic event, of priority `CSYNC_LOG_PRIORITY_ERROR`. -/
theorem set_file_id_overflow (FILE_ID_BUF_SIZE : Nat) (dst src : Buffer) (n : Nat)
    (hsrc : strlen src = some n) (hlong : FILE_ID_BUF_SIZE < n)
    (hdst : FILE_ID_BUF_SIZE < dst.length) :
    ∃ out buf ev, csync_vio_set_file_id FILE_ID_BUF_SIZE (some dst) (some src) = some out ∧
      out.dst = some buf ∧ cstr buf = [] ∧
      out.log = [ev] ∧ ev.priority = LogPriority.CSYNC_LOG_PRIORITY_ERROR := by
  exact ⟨_, _, _, reject_path FILE_ID_BUF_SIZE dst src n hsrc hlong hdst, rfl,
    cstr_cons_zero _, rfl, rfl⟩

theorem set_file_id_overflow_witness :
    strlen (List.replicate 17 (120 : Byte) ++ [0]) = some 17 ∧ 16 < 17 ∧
    16 < (List.replicate 17 (7 : Byte)).length ∧
    ∃ out buf ev, csync_vio_set_file_id 16 (some (List.replicate 17 7))
        (some (List.replicate 17 120 ++ [0])) = some out ∧
      out.dst = some buf ∧ cstr buf = [] ∧
      out.log = [ev] ∧ ev.priority = LogPriority.CSYNC_LOG_PRIORITY_ERROR :=
  ⟨by decide, by decide, by decide,
    set_file_id_overflow 16 (List.replicate 17 7) (List.replicate 17 120 ++ [0]) 17
      (by decide) (by decide) (by decide)⟩

/-- C3: when both pointers are present and the source is a string, the string
left in the destination is the whole source or the empty string; for a source
longer than `FILE_ID_BUF_SIZE` it is never a proper non-empty prefix of the
source. -/
theorem set_file_id_no_truncation (FILE_ID_BUF_SIZE : Nat) (dst src : Buffer) (n : Nat)
    (hsrc : strlen src = some n) (hdst : FILE_ID_BUF_SIZE < dst.length) :
    ∃ out buf, csync_vio_set_file_id FILE_ID_BUF_SIZE (some dst) (some src) = some out ∧
      out.dst = some buf ∧ (cstr buf = cstr src ∨ cstr buf = []) ∧
      (FILE_ID_BUF_SIZE < n →
        ¬ (cstr buf ≠ [] ∧ cstr buf <+: cstr src ∧ cstr buf ≠ cstr src)) := by
  by_cases hfit : n ≤ FILE_ID_BUF_SIZE
  · refine ⟨_, _, accept_path FILE_ID_BUF_SIZE dst src n hsrc hfit hdst, rfl, ?_, ?_⟩
    · exact Or.inl (cstr_append_zero _ _ (cstr_ne_zero src))
    · intro hlong; omega
  · have hlong : FILE_ID_BUF_SIZE < n := by omega
    refine ⟨_, _, reject_path FILE_ID_BUF_SIZE dst src n hsrc hlong hdst, rfl, ?_, ?_⟩
    · exact Or.inr (cstr_cons_zero _)
    · intro _ hcon
      exact hcon.1 (cstr_cons_zero _)

theorem set_file_id_no_truncation_witness :
    strlen (List.replicate 17 (120 : Byte) ++ [0]) = some 17 ∧
    16 < (List.replicate 17 (7 : Byte)).length ∧
    ∃ out buf, csync_vio_set_file_id 16 (some (List.replicate 17 7))
        (some (List.replicate 17 120 ++ [0])) = some out ∧
      out.dst = some buf ∧
      (cstr buf = cstr (List.replicate 17 120 ++ [0]) ∨ cstr buf = []) ∧
      (16 < 17 →
        ¬ (cstr buf ≠ [] ∧ cstr buf <+: cstr (List.replicate 17 120 ++ [0]) ∧
          cstr buf ≠ cstr (List.replicate 17 120 ++ [0]))) :=
  ⟨by decide, by decide,
    set_file_id_no_truncation 16 (List.replicate 17 7) (List.replicate 17 120 ++ [0]) 17
      (by decide) (by decide)⟩

/-- C4: with a NULL source the call returns and leaves the destination as it
was, every byte included, storing nothing and logging nothing; with a NULL
destination the call returns, stores nothing and logs nothing, whatever the
source is. -/
theorem set_file_id_absent (FILE_ID_BUF_SIZE : Nat) :
    (∀ dst : Option Buffer,
      csync_vio_set_file_id FILE_ID_BUF_SIZE dst none =
        some { dst := dst, written := [], log := [] }) ∧
    (∀ src : Option Buffer,
      csync_vio_set_file_id FILE_ID_BUF_SIZE none src =
        some { dst := none, written := [], log := [] }) := by
  constructor
  · intro dst
    cases dst <;> rfl
  · intro src
    cases src <;> rfl

theorem strlen_append_zero (s t : List Byte) (hs : ∀ b ∈ s, b ≠ 0) :
    strlen (s ++ 0 :: t) = some s.length := by
  induction s with
  | nil => simp [strlen]
  | cons a s ih =>
    have ha : a ≠ 0 := hs a (List.mem_cons_self a s)
    have hrest : ∀ b ∈ s, b ≠ 0 := fun b hb => hs b (List.mem_cons_of_mem a hb)
    simp [strlen, ha, ih hrest]

theorem formatMessage_text_then_s (p a : List Byte) (hp : ∀ b ∈ p, b ≠ 37) :
    formatMessage (p ++ [37, 115]) [a] = p ++ a := by
  induction p with
  | nil => simp [formatMessage]
  | cons c p ih =>
    have hc : c ≠ 37 := hp c (List.mem_cons_self c p)
    have hrest : ∀ b ∈ p, b ≠ 37 := fun b hb => hp b (List.mem_cons_of_mem c hb)
    have ih2 := ih hrest
    cases p with
    | nil => simp [formatMessage, hc]
    | cons c2 p2 =>
      simp only [List.cons_append] at ih2 ⊢
      simp [formatMessage, hc, ih2]

theorem tooLongFormat_eq : cstr tooLongFormat = tooLongText ++ [37, 115] := by
  decide

theorem tooLongText_no_percent : ∀ b ∈ tooLongText, b ≠ 37 := by
  decide

theorem tooLongText_no_digit : ∀ b ∈ tooLongText, isDigit b = false := by
  decide

theorem reject_message (src : Buffer) :
    (CSYNC_LOG LogPriority.CSYNC_LOG_PRIORITY_ERROR tooLongFormat [src]).message
      = tooLongText ++ cstr src := by
  simp only [LogEvent.message, CSYNC_LOG, List.map, tooLongFormat_eq]
  exact formatMessage_text_then_s _ _ tooLongText_no_percent

theorem null_dst_path (cap : Nat) (src : Option Buffer) :
    csync_vio_set_file_id cap none src = some { dst := none, written := [], log := [] } := by
  cases src <;> rfl

/-- C5 fails as stated: with a NULL source the call is a no-op, so a
destination of 17 bytes that holds no terminator before the call holds none
after it either. -/
theorem set_file_id_noop_keeps_unterminated :
    csync_vio_set_file_id 16 (some (List.replicate 17 120)) none =
      some { dst := some (List.replicate 17 120), written := [], log := [] } ∧
    holdsBoundedString 16 (List.replicate 17 120) = false := by
  decide

/-- C5, amended: for every state of the destination, after a call with a
present source string (accepted or rejected) the destination holds a
terminator-bounded string of at most `FILE_ID_BUF_SIZE` characters; after a
call with a NULL source it holds one provided it did before the call. -/
theorem set_file_id_bounded_string (FILE_ID_BUF_SIZE : Nat) (dst : Buffer)
    (src : Option Buffer) (hdst : FILE_ID_BUF_SIZE < dst.length)
    (hsrc : ∀ s, src = some s → (strlen s).isSome = true)
    (hprior : src = none → holdsBoundedString FILE_ID_BUF_SIZE dst = true) :
    ∃ out buf, csync_vio_set_file_id FILE_ID_BUF_SIZE (some dst) src = some out ∧
      out.dst = some buf ∧ holdsBoundedString FILE_ID_BUF_SIZE buf = true := by
  cases src with
  | none => exact ⟨_, _, rfl, rfl, hprior rfl⟩
  | some s =>
    obtain ⟨n, hn⟩ := Option.isSome_iff_exists.mp (hsrc s rfl)
    by_cases hfit : n ≤ FILE_ID_BUF_SIZE
    · refine ⟨_, _, accept_path FILE_ID_BUF_SIZE dst s n hn hfit hdst, rfl, ?_⟩
      have hlen := strlen_eq_cstr_length s n hn
      simp [holdsBoundedString, strlen_append_zero _ _ (cstr_ne_zero s), hlen, hfit]
    · have hlong : FILE_ID_BUF_SIZE < n := by omega
      refine ⟨_, _, reject_path FILE_ID_BUF_SIZE dst s n hn hlong hdst, rfl, ?_⟩
      simp [holdsBoundedString, strlen]

theorem set_file_id_bounded_string_witness :
    16 < (List.replicate 17 (120 : Byte)).length ∧
    (∀ s, some (cstringLit "abc123") = some s → (strlen s).isSome = true) ∧
    ((some (cstringLit "abc123") : Option Buffer) = none →
      holdsBoundedString 16 (List.replicate 17 120) = true) ∧
    ∃ out buf, csync_vio_set_file_id 16 (some (List.replicate 17 120))
        (some (cstringLit "abc123")) = some out ∧
      out.dst = some buf ∧ holdsBoundedString 16 buf = true :=
  have h1 : ∀ s, some (cstringLit "abc123") = some s → (strlen s).isSome = true :=
    fun s h => by cases h; decide
  have h2 : (some (cstringLit "abc123") : Option Buffer) = none →
      holdsBoundedString 16 (List.replicate 17 120) = true :=
    fun h => by cases h
  ⟨by decide, h1, h2,
    set_file_id_bounded_string 16 (List.replicate 17 120) (some (cstringLit "abc123"))
      (by decide) h1 h2⟩

/-- C6: for every source string and every destination of `FILE_ID_BUF_SIZE`
characters plus terminator the call completes, and every index it stores to
lies inside the destination: the highest index stored to is `strlen(src)`,
at most `FILE_ID_BUF_SIZE`, when the source is accepted, and 0 when it is
rejected. -/
theorem set_file_id_in_bounds (FILE_ID_BUF_SIZE : Nat) (dst src : Buffer) (n : Nat)
    (hsrc : strlen src = some n) (hdst : dst.length = FILE_ID_BUF_SIZE + 1) :
    ∃ out, csync_vio_set_file_id FILE_ID_BUF_SIZE (some dst) (some src) = some out ∧
      (∀ i ∈ out.written, i < dst.length) ∧
      (n ≤ FILE_ID_BUF_SIZE → n ∈ out.written ∧ ∀ i ∈ out.written, i ≤ n) ∧
      (FILE_ID_BUF_SIZE < n → 0 ∈ out.written ∧ ∀ i ∈ out.written, i ≤ 0) := by
  have hd : FILE_ID_BUF_SIZE < dst.length := by omega
  by_cases hfit : n ≤ FILE_ID_BUF_SIZE
  · refine ⟨_, accept_path FILE_ID_BUF_SIZE dst src n hsrc hfit hd, ?_, ?_, ?_⟩
    · intro i hi
      simp only [List.mem_range'_1] at hi
      omega
    · intro _
      refine ⟨by simp [List.mem_range'_1], ?_⟩
      intro i hi
      simp only [List.mem_range'_1] at hi
      omega
    · intro hlong; omega
  · have hlong : FILE_ID_BUF_SIZE < n := by omega
    refine ⟨_, reject_path FILE_ID_BUF_SIZE dst src n hsrc hlong hd, ?_, ?_, ?_⟩
    · intro i hi
      simp only [List.mem_singleton] at hi
      omega
    · intro h; omega
    · intro _
      simp

theorem set_file_id_in_bounds_witness :
    strlen (List.replicate 16 (120 : Byte) ++ [0]) = some 16 ∧
    (List.replicate 17 (7 : Byte)).length = 16 + 1 ∧
    ∃ out, csync_vio_set_file_id 16 (some (List.replicate 17 7))
        (some (List.replicate 16 120 ++ [0])) = some out ∧
      (∀ i ∈ out.written, i < (List.replicate 17 (7 : Byte)).length) ∧
      (16 ≤ 16 → 16 ∈ out.written ∧ ∀ i ∈ out.written, i ≤ 16) ∧
      (16 < 16 → 0 ∈ out.written ∧ ∀ i ∈ out.written, i ≤ 0) :=
  ⟨by decide, by decide,
    set_file_id_in_bounds 16 (List.replicate 17 7) (List.replicate 16 120 ++ [0]) 16
      (by decide) (by decide)⟩

/-- C7: for a source string that fits, a second call with the same source on
the destination the first call left gives the same destination, byte for
byte, and like the first call it logs nothing. -/
theorem set_file_id_idempotent (FILE_ID_BUF_SIZE : Nat) (dst src : Buffer) (n : Nat)
    (hsrc : strlen src = some n) (hfit : n ≤ FILE_ID_BUF_SIZE)
    (hdst : FILE_ID_BUF_SIZE < dst.length) :
    ∃ out1 buf1 out2,
      csync_vio_set_file_id FILE_ID_BUF_SIZE (some dst) (some src) = some out1 ∧
      out1.dst = some buf1 ∧
      csync_vio_set_file_id FILE_ID_BUF_SIZE (some buf1) (some src) = some out2 ∧
      out2.dst = some buf1 ∧ out1.log = [] ∧ out2.log = [] := by
  have hlen := strlen_eq_cstr_length src n hsrc
  have hdrop : (cstr src ++ 0 :: dst.drop (n + 1)).drop (n + 1) = dst.drop (n + 1) := by
    have : n + 1 = (cstr src ++ [0]).length := by simp [hlen]
    rw [show cstr src ++ 0 :: dst.drop (n + 1) = (cstr src ++ [0]) ++ dst.drop (n + 1) by simp]
    rw [this, List.drop_left]
  have hlen1 : FILE_ID_BUF_SIZE < (cstr src ++ 0 :: dst.drop (n + 1)).length := by
    simp only [List.length_append, List.length_cons, List.length_drop, hlen]
    omega
  refine ⟨_, _, _, accept_path FILE_ID_BUF_SIZE dst src n hsrc hfit hdst, rfl,
    accept_path FILE_ID_BUF_SIZE _ src n hsrc hfit hlen1, ?_, rfl, rfl⟩
  simp only [hdrop]

theorem set_file_id_idempotent_witness :
    strlen (cstringLit "abc123") = some 6 ∧ 6 ≤ 16 ∧
    16 < (List.replicate 17 (7 : Byte)).length ∧
    ∃ out1 buf1 out2,
      csync_vio_set_file_id 16 (some (List.replicate 17 7))
        (some (cstringLit "abc123")) = some out1 ∧
      out1.dst = some buf1 ∧
      csync_vio_set_file_id 16 (some buf1) (some (cstringLit "abc123")) = some out2 ∧
      out2.dst = some buf1 ∧ out1.log = [] ∧ out2.log = [] :=
  ⟨by decide, by decide, by decide,
    set_file_id_idempotent 16 (List.replicate 17 7) (cstringLit "abc123") 6
      (by decide) (by decide) (by decide)⟩

/-- C8: the call returns, and it emits a diagnostic event if and only if both
pointers are present and the source is longer than `FILE_ID_BUF_SIZE`; so it
emits none for a NULL source, for a NULL destination and for a source that
fits, and a present empty source leaves the empty string in the destination
without a diagnostic. -/
theorem set_file_id_log_iff (FILE_ID_BUF_SIZE : Nat) (dst src : Option Buffer)
    (hwf : ∀ d s, dst = some d → src = some s →
      FILE_ID_BUF_SIZE < d.length ∧ (strlen s).isSome = true) :
    ∃ out, csync_vio_set_file_id FILE_ID_BUF_SIZE dst src = some out ∧
      (out.log ≠ [] ↔
        ∃ d s n, dst = some d ∧ src = some s ∧ strlen s = some n ∧ FILE_ID_BUF_SIZE < n) ∧
      (src = none → out.log = []) ∧
      (dst = none → out.log = []) ∧
      (∀ s n, src = some s → strlen s = some n → n ≤ FILE_ID_BUF_SIZE → out.log = []) ∧
      (∀ d s, dst = some d → src = some s → strlen s = some 0 →
        out.log = [] ∧ out.held = some []) := by
  cases dst with
  | none =>
    refine ⟨_, (null_dst_path FILE_ID_BUF_SIZE src), ?_, ?_, ?_, ?_, ?_⟩
    · simp
    · intro _; rfl
    · intro _; rfl
    · intro _ _ _ _ _; rfl
    · intro d s hd; cases hd
  | some d =>
    cases src with
    | none =>
      refine ⟨_, rfl, ?_, ?_, ?_, ?_, ?_⟩
      · simp
      · intro _; rfl
      · intro _; rfl
      · intro _ _ hs; cases hs
      · intro _ _ _ hs; cases hs
    | some s =>
      obtain ⟨hd, hs⟩ := hwf d s rfl rfl
      obtain ⟨n, hn⟩ := Option.isSome_iff_exists.mp hs
      by_cases hfit : n ≤ FILE_ID_BUF_SIZE
      · refine ⟨_, accept_path FILE_ID_BUF_SIZE d s n hn hfit hd, ?_, ?_, ?_, ?_, ?_⟩
        · constructor
          · intro h; exact absurd rfl h
          · rintro ⟨d2, s2, n2, -, hs2, hn2, hlt⟩
            cases hs2
            rw [hn] at hn2
            cases hn2
            omega
        · intro _; rfl
        · intro _; rfl
        · intro _ _ _ _ _; rfl
        · intro d2 s2 _ hs2 h0
          cases hs2
          rw [hn] at h0
          cases h0
          refine ⟨rfl, ?_⟩
          have hlen := strlen_eq_cstr_length s 0 hn
          simp only [Outcome.held, Option.map_some', Option.some.injEq]
          rw [cstr_append_zero _ _ (cstr_ne_zero s)]
          exact List.eq_nil_of_length_eq_zero hlen
      · have hlong : FILE_ID_BUF_SIZE < n := by omega
        refine ⟨_, reject_path FILE_ID_BUF_SIZE d s n hn hlong hd, ?_, ?_, ?_, ?_, ?_⟩
        · constructor
          · intro _; exact ⟨d, s, n, rfl, rfl, hn, hlong⟩
          · intro _; simp
        · intro h; cases h
        · intro h; cases h
        · intro s2 n2 hs2 hn2 hle
          cases hs2
          rw [hn] at hn2
          cases hn2
          omega
        · intro d2 s2 _ hs2 h0
          cases hs2
          rw [hn] at h0
          cases h0
          omega

theorem set_file_id_log_iff_witness :
    (∀ d s, some (List.replicate 17 (7 : Byte)) = some d →
      some (List.replicate 17 (120 : Byte) ++ [0]) = some s →
      16 < d.length ∧ (strlen s).isSome = true) ∧
    ∃ out, csync_vio_set_file_id 16 (some (List.replicate 17 7))
        (some (List.replicate 17 120 ++ [0])) = some out ∧
      (out.log ≠ [] ↔
        ∃ d s n, some (List.replicate 17 (7 : Byte)) = some d ∧
          some (List.replicate 17 (120 : Byte) ++ [0]) = some s ∧
          strlen s = some n ∧ 16 < n) ∧
      ((some (List.replicate 17 (120 : Byte) ++ [0]) : Option Buffer) = none → out.log = []) ∧
      ((some (List.replicate 17 (7 : Byte)) : Option Buffer) = none → out.log = []) ∧
      (∀ s n, some (List.replicate 17 (120 : Byte) ++ [0]) = some s →
        strlen s = some n → n ≤ 16 → out.log = []) ∧
      (∀ d s, some (List.replicate 17 (7 : Byte)) = some d →
        some (List.replicate 17 (120 : Byte) ++ [0]) = some s → strlen s = some 0 →
        out.log = [] ∧ out.held = some []) :=
  have hwf : ∀ d s, some (List.replicate 17 (7 : Byte)) = some d →
      some (List.replicate 17 (120 : Byte) ++ [0]) = some s →
      16 < d.length ∧ (strlen s).isSome = true :=
    fun d s hd hs => by cases hd; cases hs; decide
  ⟨hwf, set_file_id_log_iff 16 (some (List.replicate 17 7))
    (some (List.replicate 17 120 ++ [0])) hwf⟩

/-- C9 fails as stated: with `FILE_ID_BUF_SIZE = 16` and a source of 17 `x`
the destination becomes empty and one event is emitted, but the text of its
record does not contain the number 17. -/
theorem set_file_id_log_lacks_length :
    ∃ out ev, csync_vio_set_file_id 16 (some (List.replicate 17 7))
        (some (List.replicate 17 120 ++ [0])) = some out ∧
      strlen (List.replicate 17 (120 : Byte) ++ [0]) = some 17 ∧
      out.held = some [] ∧ out.log = [ev] ∧
      ¬ (decimal 17 <:+: ev.message) := by
  refine ⟨_, _, reject_path 16 _ _ 17 (by decide) (by decide) (by decide),
    by decide, rfl, rfl, ?_⟩
  decide

/-- C9, amended: for every source string longer than `FILE_ID_BUF_SIZE` the
destination becomes empty and the single event emitted carries the source
identifier itself, all `strlen(src)` bytes of it, at the end of its text; the
length is not printed as a number, every digit in the text being a byte of the
identifier. -/
theorem set_file_id_log_has_identifier (FILE_ID_BUF_SIZE : Nat) (dst src : Buffer) (n : Nat)
    (hsrc : strlen src = some n) (hlong : FILE_ID_BUF_SIZE < n)
    (hdst : FILE_ID_BUF_SIZE < dst.length) :
    ∃ out ev, csync_vio_set_file_id FILE_ID_BUF_SIZE (some dst) (some src) = some out ∧
      out.held = some [] ∧ out.log = [ev] ∧
      cstr src <:+ ev.message ∧ (cstr src).length = n ∧
      (∀ b ∈ ev.message, isDigit b = true → b ∈ cstr src) := by
  refine ⟨_, _, reject_path FILE_ID_BUF_SIZE dst src n hsrc hlong hdst, ?_, rfl, ?_,
    strlen_eq_cstr_length src n hsrc, ?_⟩
  · simp [Outcome.held, cstr_cons_zero]
  · rw [reject_message]
    exact List.suffix_append _ _
  · intro b hb hdig
    rw [reject_message, List.mem_append] at hb
    rcases hb with hb | hb
    · rw [tooLongText_no_digit b hb] at hdig
      cases hdig
    · exact hb

theorem set_file_id_log_has_identifier_witness :
    strlen (List.replicate 17 (120 : Byte) ++ [0]) = some 17 ∧ 16 < 17 ∧
    16 < (List.replicate 17 (7 : Byte)).length ∧
    ∃ out ev, csync_vio_set_file_id 16 (some (List.replicate 17 7))
        (some (List.replicate 17 120 ++ [0])) = some out ∧
      out.held = some [] ∧ out.log = [ev] ∧
      cstr (List.replicate 17 (120 : Byte) ++ [0]) <:+ ev.message ∧
      (cstr (List.replicate 17 (120 : Byte) ++ [0])).length = 17 ∧
      (∀ b ∈ ev.message, isDigit b = true → b ∈ cstr (List.replicate 17 (120 : Byte) ++ [0])) :=
  ⟨by decide, by decide, by decide,
    set_file_id_log_has_identifier 16 (List.replicate 17 7) (List.replicate 17 120 ++ [0]) 17
      (by decide) (by decide) (by decide)⟩

/-- C10: for every source string longer than `FILE_ID_BUF_SIZE` the record of
the event emitted is the fixed text `Ignoring file_id because it is too
long: `, the same for all sources, followed by the whole source identifier. -/
theorem set_file_id_log_record (FILE_ID_BUF_SIZE : Nat) (dst src : Buffer) (n : Nat)
    (hsrc : strlen src = some n) (hlong : FILE_ID_BUF_SIZE < n)
    (hdst : FILE_ID_BUF_SIZE < dst.length) :
    ∃ out ev, csync_vio_set_file_id FILE_ID_BUF_SIZE (some dst) (some src) = some out ∧
      out.log = [ev] ∧ ev.format = tooLongText ++ [37, 115] ∧ ev.args = [cstr src] ∧
      ev.message = tooLongText ++ cstr src := by
  exact ⟨_, _, reject_path FILE_ID_BUF_SIZE dst src n hsrc hlong hdst, rfl,
    tooLongFormat_eq, rfl, reject_message src⟩

theorem set_file_id_log_record_witness :
    strlen (List.replicate 17 (120 : Byte) ++ [0]) = some 17 ∧ 16 < 17 ∧
    16 < (List.replicate 17 (7 : Byte)).length ∧
    ∃ out ev, csync_vio_set_file_id 16 (some (List.replicate 17 7))
        (some (List.replicate 17 120 ++ [0])) = some out ∧
      out.log = [ev] ∧ ev.format = tooLongText ++ [37, 115] ∧
      ev.args = [cstr (List.replicate 17 (120 : Byte) ++ [0])] ∧
      ev.message = tooLongText ++ cstr (List.replicate 17 (120 : Byte) ++ [0]) :=
  ⟨by decide, by decide, by decide,
    set_file_id_log_record 16 (List.replicate 17 7) (List.replicate 17 120 ++ [0]) 17
      (by decide) (by decide) (by decide)⟩

/-! The bytes a call leaves alone. -/

theorem getElem?_after_copy (s l : List Byte) (i : Nat) (hi : s.length < i) :
    (s ++ 0 :: l.drop (s.length + 1))[i]? = l[i]? := by
  obtain ⟨k, rfl⟩ : ∃ k, i = s.length + (k + 1) := ⟨i - s.length - 1, by omega⟩
  rw [List.getElem?_append_right (by omega)]
  have hk : s.length + (k + 1) - s.length = k + 1 := by omega
  rw [hk, List.getElem?_cons_succ, List.getElem?_drop]
  congr 1
  omega

theorem length_after_copy (s l : List Byte) (h : s.length < l.length) :
    (s ++ 0 :: l.drop (s.length + 1)).length = l.length := by
  simp only [List.length_append, List.length_cons, List.length_drop]
  omega

/-- C11: when both pointers are present and the source is a string, the string
held in the destination after the call is a function of the source alone, the
source itself when it fits and the empty string otherwise: two calls with the
same source on destinations of any two prior contents leave the same string. -/
theorem set_file_id_held_by_source (FILE_ID_BUF_SIZE : Nat) (dst1 dst2 src : Buffer)
    (n : Nat) (hsrc : strlen src = some n)
    (hdst1 : FILE_ID_BUF_SIZE < dst1.length) (hdst2 : FILE_ID_BUF_SIZE < dst2.length) :
    ∃ out1 out2,
      csync_vio_set_file_id FILE_ID_BUF_SIZE (some dst1) (some src) = some out1 ∧
      csync_vio_set_file_id FILE_ID_BUF_SIZE (some dst2) (some src) = some out2 ∧
      out1.held = out2.held ∧
      out1.held = some (if n ≤ FILE_ID_BUF_SIZE then cstr src else []) := by
  by_cases hfit : n ≤ FILE_ID_BUF_SIZE
  · refine ⟨_, _, accept_path FILE_ID_BUF_SIZE dst1 src n hsrc hfit hdst1,
      accept_path FILE_ID_BUF_SIZE dst2 src n hsrc hfit hdst2, ?_, ?_⟩
    · simp only [Outcome.held, Option.map_some']
      rw [cstr_append_zero _ _ (cstr_ne_zero src), cstr_append_zero _ _ (cstr_ne_zero src)]
    · simp only [Outcome.held, Option.map_some', if_pos hfit]
      rw [cstr_append_zero _ _ (cstr_ne_zero src)]
  · have hlong : FILE_ID_BUF_SIZE < n := by omega
    refine ⟨_, _, reject_path FILE_ID_BUF_SIZE dst1 src n hsrc hlong hdst1,
      reject_path FILE_ID_BUF_SIZE dst2 src n hsrc hlong hdst2, ?_, ?_⟩
    · simp only [Outcome.held, Option.map_some', cstr_cons_zero]
    · simp only [Outcome.held, Option.map_some', cstr_cons_zero, if_neg hfit]

theorem set_file_id_held_by_source_witness :
    strlen (cstringLit "abc123") = some 6 ∧
    16 < (List.replicate 17 (7 : Byte)).length ∧
    16 < (List.replicate 16 (122 : Byte) ++ [0]).length ∧
    ∃ out1 out2,
      csync_vio_set_file_id 16 (some (List.replicate 17 7))
        (some (cstringLit "abc123")) = some out1 ∧
      csync_vio_set_file_id 16 (some (List.replicate 16 122 ++ [0]))
        (some (cstringLit "abc123")) = some out2 ∧
      out1.held = out2.held ∧
      out1.held = some (if 6 ≤ 16 then cstr (cstringLit "abc123") else []) :=
  ⟨by decide, by decide, by decide,
    set_file_id_held_by_source 16 (List.replicate 17 7) (List.replicate 16 122 ++ [0])
      (cstringLit "abc123") 6 (by decide) (by decide) (by decide)⟩

/-- C12: the call stores to a prefix of the destination only and leaves the
rest as it was: the region keeps its size, the indices stored to are
`0 .. strlen(src)` when the source is accepted and `0` alone when it is
rejected, and every byte at a higher index keeps its prior value. -/
theorem set_file_id_frame (FILE_ID_BUF_SIZE : Nat) (dst src : Buffer) (n : Nat)
    (hsrc : strlen src = some n) (hdst : FILE_ID_BUF_SIZE < dst.length) :
    ∃ out buf, csync_vio_set_file_id FILE_ID_BUF_SIZE (some dst) (some src) = some out ∧
      out.dst = some buf ∧ buf.length = dst.length ∧
      (n ≤ FILE_ID_BUF_SIZE →
        out.written = List.range (n + 1) ∧ ∀ i, n < i → buf[i]? = dst[i]?) ∧
      (FILE_ID_BUF_SIZE < n →
        out.written = [0] ∧ ∀ i, 0 < i → buf[i]? = dst[i]?) := by
  have hlen := strlen_eq_cstr_length src n hsrc
  by_cases hfit : n ≤ FILE_ID_BUF_SIZE
  · refine ⟨_, _, accept_path FILE_ID_BUF_SIZE dst src n hsrc hfit hdst, rfl, ?_, ?_, ?_⟩
    · have h := length_after_copy (cstr src) dst (by omega)
      rw [hlen] at h
      exact h
    · intro _
      refine ⟨by simp [List.range_eq_range'], ?_⟩
      intro i hi
      have h := getElem?_after_copy (cstr src) dst i (by omega)
      rw [hlen] at h
      exact h
    · intro hlong; omega
  · have hlong : FILE_ID_BUF_SIZE < n := by omega
    refine ⟨_, _, reject_path FILE_ID_BUF_SIZE dst src n hsrc hlong hdst, rfl, ?_, ?_, ?_⟩
    · exact length_after_copy [] dst (by simp; omega)
    · intro h; omega
    · intro _
      refine ⟨rfl, ?_⟩
      intro i hi
      exact getElem?_after_copy [] dst i (by simpa using hi)

theorem set_file_id_frame_witness :
    strlen (cstringLit "abc123") = some 6 ∧
    16 < (List.replicate 17 (7 : Byte)).length ∧
    ∃ out buf, csync_vio_set_file_id 16 (some (List.replicate 17 7))
        (some (cstringLit "abc123")) = some out ∧
      out.dst = some buf ∧ buf.length = (List.replicate 17 (7 : Byte)).length ∧
      (6 ≤ 16 →
        out.written = List.range (6 + 1) ∧
        ∀ i, 6 < i → buf[i]? = (List.replicate 17 (7 : Byte))[i]?) ∧
      (16 < 6 →
        out.written = [0] ∧ ∀ i, 0 < i → buf[i]? = (List.replicate 17 (7 : Byte))[i]?) :=
  ⟨by decide, by decide,
    set_file_id_frame 16 (List.replicate 17 7) (cstringLit "abc123") 6
      (by decide) (by decide)⟩

end Csync
